import Mathlib

/-!
Verification of the core game-state machine of the snake.ion repository
(single source file: a 3D snake game). The definitions below are a shallow
embedding of the game logic in that file: the grid constants, the random
food placer, the keyboard input handler, the per-tick snake movement, the
game-start reset, and the high-score update effect. Randomness is modelled
by an explicit stream of sampled grid coordinates, and the potentially
non-terminating retry loop of the food placer by an explicit fuel bound
returning Option. The main theorems establish the spec's testable
properties: duplicate-freedom of the snake, the no-180-degree-reversal
temporal property, length change per tick, collision atomicity, the food
placer contract, the start-game reset, score/high-score invariants, and
the food-off-snake invariant.
-/

namespace SnakeSpec

/-- A grid cell, an integer (x, z) pair. -/
abbrev Cell := Int × Int

/-- GRID_SIZE constant: 21 by 21 grid. -/
def GRID_SIZE : Nat := 21

/-- BOUNDARY = (GRID_SIZE - 1) / 2 = 10; coordinates range over [-10, 10]. -/
def BOUNDARY : Int := ((GRID_SIZE : Int) - 1) / 2

/-- The three speed presets (tick periods in milliseconds). -/
def SPEEDS_SLOW : Nat := 200

/-- Medium speed preset. -/
def SPEEDS_MEDIUM : Nat := 120

/-- Fast speed preset. -/
def SPEEDS_FAST : Nat := 70

/-- GridModel bounds predicate: both coordinates lie in [-B, B]. -/
def isInBounds (c : Cell) : Prop :=
  -BOUNDARY ≤ c.1 ∧ c.1 ≤ BOUNDARY ∧ -BOUNDARY ≤ c.2 ∧ c.2 ≤ BOUNDARY

instance (c : Cell) : Decidable (isInBounds c) := by
  unfold isInBounds; infer_instance

/-- The wall-collision test of moveSnake:
newHead[0] < -BOUNDARY || newHead[0] > BOUNDARY ||
newHead[1] < -BOUNDARY || newHead[1] > BOUNDARY. -/
def wallCollision (c : Cell) : Prop :=
  c.1 < -BOUNDARY ∨ c.1 > BOUNDARY ∨ c.2 < -BOUNDARY ∨ c.2 > BOUNDARY

instance (c : Cell) : Decidable (wallCollision c) := by
  unfold wallCollision; infer_instance

/-- The self-collision loop of moveSnake: scan indices 0 .. length - 2
(every cell except the tail tip) for a componentwise match with newHead. -/
def selfCollision (snake : List Cell) (newHead : Cell) : Bool :=
  snake.dropLast.any fun c => newHead.1 == c.1 && newHead.2 == c.2

/-- getRandomPosition: repeatedly sample a random cell
(x = floor(random * GRID_SIZE) - BOUNDARY, likewise z) until the sample is
not on the snake. The random stream is explicit (rand), the unbounded
while loop is given explicit fuel, and running out of fuel (the loop not
terminating within the bound) yields none. -/
def getRandomPosition (rand : Nat → Fin GRID_SIZE × Fin GRID_SIZE)
    (snake : List Cell) : Nat → Nat → Option Cell
  | 0, _ => none
  | fuel + 1, k =>
    let x : Int := ((rand k).1.val : Int) - BOUNDARY
    let z : Int := ((rand k).2.val : Int) - BOUNDARY
    if snake.any (fun c => c.1 == x && c.2 == z) then
      getRandomPosition rand snake fuel (k + 1)
    else
      some (x, z)

/-- GameState enum. -/
inductive GState
  | MENU
  | PLAYING
  | GAME_OVER
deriving DecidableEq, Repr

/-- ViewMode enum (camera toggle, out of core scope but mutated by input). -/
inductive ViewMode
  | THIRD_PERSON
  | FIRST_PERSON
deriving DecidableEq, Repr

/-- The mutable state of the App component relevant to the game core:
gameState, speed, score, highScore, viewMode, snake, food, the in-effect
direction (directionRef) and the pending move queue (moveQueue). -/
structure GameS where
  gameState : GState
  speed : Nat
  score : Nat
  highScore : Nat
  viewMode : ViewMode
  snake : List Cell
  food : Cell
  direction : Cell
  moveQueue : List Cell
deriving DecidableEq, Repr

/-- The useState initial values of the App component (state before any
game is started): MENU, medium speed, score 0, snake [[0,2],[0,1],[0,0]],
food [0,5], direction [0,1], empty queue. -/
def initialApp : GameS :=
  { gameState := GState.MENU
    speed := SPEEDS_MEDIUM
    score := 0
    highScore := 0
    viewMode := ViewMode.THIRD_PERSON
    snake := [(0, 2), (0, 1), (0, 0)]
    food := (0, 5)
    direction := (0, 1)
    moveQueue := [] }

/-- The queue-processing prologue of moveSnake: if the move queue is
non-empty, shift its first element into directionRef (and setDirection);
otherwise keep the current direction. -/
def dequeue (s : GameS) : GameS :=
  match s.moveQueue with
  | [] => s
  | d :: rest => { s with direction := d, moveQueue := rest }

/-- The body of the setSnake updater in moveSnake, run after the queue
prologue, as a function of the current snake list. pf stands for the
getRandomPosition call used on a food eat (none modelling the case where
that retry loop does not terminate). -/
def moveSnakeGo (pf : List Cell → Option Cell) (s : GameS) :
    List Cell → Option GameS
  | [] => none
  | head :: tail =>
    let newHead : Cell := (head.1 + s.direction.1, head.2 + s.direction.2)
    if wallCollision newHead then
      some { s with gameState := GState.GAME_OVER }
    else if selfCollision (head :: tail) newHead then
      some { s with gameState := GState.GAME_OVER }
    else if newHead.1 = s.food.1 ∧ newHead.2 = s.food.2 then
      match pf (newHead :: head :: tail) with
      | none => none
      | some f =>
        some { s with snake := newHead :: head :: tail
                      food := f
                      score := s.score + 10 }
    else
      some { s with snake := (newHead :: head :: tail).dropLast }

/-- One execution of moveSnake (the tick callback): process the queue,
then run the snake update (wall check, self check, food check). -/
def moveSnake (pf : List Cell → Option Cell) (s : GameS) : Option GameS :=
  moveSnakeGo pf (dequeue s) (dequeue s).snake

/-- The in-effect direction a tick executed from s would use: the head of
the move queue if non-empty, else the current direction. -/
def effDir (s : GameS) : Cell :=
  (dequeue s).direction

/-- The new head a tick executed from s would compute:
snake[0] + in-effect direction, componentwise. -/
def newHeadOf (s : GameS) : Cell :=
  (s.snake.headI.1 + (effDir s).1, s.snake.headI.2 + (effDir s).2)

/-- Key-to-direction mapping of handleKeyDown (w/s/a/d and arrow keys,
already lowercased). -/
def keyToDir (k : String) : Option Cell :=
  if k = "w" ∨ k = "arrowup" then some (0, -1)
  else if k = "s" ∨ k = "arrowdown" then some (0, 1)
  else if k = "a" ∨ k = "arrowleft" then some (-1, 0)
  else if k = "d" ∨ k = "arrowright" then some (1, 0)
  else none

/-- View-mode toggle performed on the space key. -/
def toggleView : ViewMode → ViewMode
  | ViewMode.THIRD_PERSON => ViewMode.FIRST_PERSON
  | ViewMode.FIRST_PERSON => ViewMode.THIRD_PERSON

/-- handleKeyDown: no-op unless PLAYING; space toggles the view; a
direction key is appended to the move queue unless it is the exact
inverse of the last queued direction (or, with an empty queue, of the
current in-effect direction). -/
def handleKeyDown (key : String) (s : GameS) : GameS :=
  if s.gameState ≠ GState.PLAYING then s
  else if key.toLower = " " then { s with viewMode := toggleView s.viewMode }
  else
    match keyToDir key.toLower with
    | none => s
    | some nd =>
      if ((s.moveQueue.getLast?).getD s.direction).1 ≠ -nd.1 ∨
         ((s.moveQueue.getLast?).getD s.direction).2 ≠ -nd.2 then
        { s with moveQueue := s.moveQueue ++ [nd] }
      else s

/-- The high-score useEffect: whenever score exceeds highScore, set
highScore to score (and persist it). -/
def updateHighScore (s : GameS) : GameS :=
  if s.score > s.highScore then { s with highScore := s.score } else s

/-- startGame(selectedSpeed): set the speed, reset the snake to the fixed
3-cell configuration, reset direction and directionRef to (0,1), clear the
move queue, reset the score, place food off the initial snake, enter
PLAYING, reset the view. pf stands for the getRandomPosition call. -/
def startGame (pf : List Cell → Option Cell) (selectedSpeed : Nat)
    (s : GameS) : Option GameS :=
  match pf [(0, 0), (0, -1), (0, -2)] with
  | none => none
  | some f =>
    some { s with speed := selectedSpeed
                  snake := [(0, 0), (0, -1), (0, -2)]
                  direction := (0, 1)
                  moveQueue := []
                  score := 0
                  food := f
                  gameState := GState.PLAYING
                  viewMode := ViewMode.THIRD_PERSON }

/-- External events after a game start: a keyboard event or a timer tick. -/
inductive Ev
  | key (k : String)
  | tick

/-- One event step: keys go through handleKeyDown; a tick runs moveSnake
(followed by the high-score effect) when PLAYING, and does nothing
otherwise (the interval is cleared outside PLAYING). -/
def stepEv (pf : List Cell → Option Cell) (s : GameS) : Ev → Option GameS
  | Ev.key k => some (handleKeyDown k s)
  | Ev.tick =>
    if s.gameState = GState.PLAYING then
      (moveSnake pf s).map updateHighScore
    else
      some s

/-- Run a sequence of events from a state. -/
def runEvents (pf : List Cell → Option Cell) : GameS → List Ev → Option GameS
  | s, [] => some s
  | s, ev :: evs =>
    match stepEv pf s ev with
    | none => none
    | some s' => runEvents pf s' evs

/-- The sequence of in-effect directions applied at the game ticks of an
event sequence (ticks executed while PLAYING), in order. -/
def tickDirs (pf : List Cell → Option Cell) : GameS → List Ev → List Cell
  | _, [] => []
  | s, ev :: evs =>
    match stepEv pf s ev with
    | none => []
    | some s' =>
      match ev with
      | Ev.tick =>
        if s.gameState = GState.PLAYING then s'.direction :: tickDirs pf s' evs
        else tickDirs pf s' evs
      | Ev.key _ => tickDirs pf s' evs

/-- Contract of a food placer standing in for getRandomPosition: any cell
it returns is in bounds and off the occupied list. -/
def PlaceFoodOK (pf : List Cell → Option Cell) : Prop :=
  ∀ occ c, pf occ = some c → isInBounds c ∧ c ∉ occ

/-- The four unit direction vectors. -/
def IsUnitDir (d : Cell) : Prop :=
  d = ((0 : Int), (-1 : Int)) ∨ d = (0, 1) ∨ d = (-1, 0) ∨ d = (1, 0)

instance (d : Cell) : Decidable (IsUnitDir d) := by
  unfold IsUnitDir; infer_instance

/-- b is not the exact componentwise negation of a. -/
def NoRev (a b : Cell) : Prop :=
  ¬(b.1 = -a.1 ∧ b.2 = -a.2)

instance (a b : Cell) : Decidable (NoRev a b) := by
  unfold NoRev; infer_instance

/-- Deterministic sample stream used for concrete executions: the k-th
sample is (k mod 21, (k / 21) mod 21). -/
def rand0 : Nat → Fin GRID_SIZE × Fin GRID_SIZE :=
  fun k =>
    (⟨k % GRID_SIZE, Nat.mod_lt _ (by decide)⟩,
     ⟨(k / GRID_SIZE) % GRID_SIZE, Nat.mod_lt _ (by decide)⟩)

/-- Concrete food placer: getRandomPosition over rand0 with fuel 441. -/
def pf0 : List Cell → Option Cell :=
  fun occ => getRandomPosition rand0 occ 441 0

/-- Constant food placer used in the concrete spec scenario. -/
def pfC : List Cell → Option Cell :=
  fun _ => some (5, 5)

/-- The spec's test scenario state: PLAYING, snake [[0,2],[0,1],[0,0]],
direction (0,1), food (0,5), empty queue. -/
def scenarioS : GameS :=
  { gameState := GState.PLAYING
    speed := SPEEDS_MEDIUM
    score := 0
    highScore := 0
    viewMode := ViewMode.THIRD_PERSON
    snake := [(0, 2), (0, 1), (0, 0)]
    food := (0, 5)
    direction := (0, 1)
    moveQueue := [] }

/-! ### Basic lemmas about the embedded operations -/

theorem selfCollision_iff (sn : List Cell) (nh : Cell) :
    selfCollision sn nh = true ↔ nh ∈ sn.dropLast := by
  simp only [selfCollision, List.any_eq_true, Bool.and_eq_true, beq_iff_eq]
  constructor
  · rintro ⟨c, hc, h1, h2⟩
    have : nh = c := Prod.ext_iff.mpr ⟨h1, h2⟩
    rwa [this]
  · intro h
    exact ⟨nh, h, rfl, rfl⟩

theorem wallCollision_iff (c : Cell) : wallCollision c ↔ ¬ isInBounds c := by
  unfold wallCollision isInBounds
  omega

/-- The food placer contract of getRandomPosition: any returned cell is in
bounds and not on the occupied list. -/
theorem getRandomPosition_spec (rand : Nat → Fin GRID_SIZE × Fin GRID_SIZE)
    (occ : List Cell) :
    ∀ (fuel k : Nat) (c : Cell),
      getRandomPosition rand occ fuel k = some c → isInBounds c ∧ c ∉ occ := by
  intro fuel
  induction fuel with
  | zero => intro k c h; exact absurd h (by simp [getRandomPosition])
  | succ n ih =>
    intro k c h
    unfold getRandomPosition at h
    by_cases hon :
        occ.any (fun p =>
          p.1 == ((rand k).1.val : Int) - BOUNDARY &&
          p.2 == ((rand k).2.val : Int) - BOUNDARY) = true
    · rw [if_pos hon] at h
      exact ih (k + 1) c h
    · rw [if_neg hon] at h
      have hc : c = (((rand k).1.val : Int) - BOUNDARY,
          ((rand k).2.val : Int) - BOUNDARY) := by
        exact (Option.some.injEq _ _).mp h.symm
      subst hc
      constructor
      · have h1 : ((rand k).1.val : Int) < 21 := by
          exact_mod_cast (rand k).1.isLt
        have h2 : ((rand k).2.val : Int) < 21 := by
          exact_mod_cast (rand k).2.isLt
        have h3 : (0 : Int) ≤ ((rand k).1.val : Int) := Int.ofNat_nonneg _
        have h4 : (0 : Int) ≤ ((rand k).2.val : Int) := Int.ofNat_nonneg _
        unfold isInBounds BOUNDARY GRID_SIZE
        constructor
        · simp only []; omega
        · refine ⟨by omega, by omega, by omega⟩
      · intro hmem
        apply hon
        simp only [List.any_eq_true, Bool.and_eq_true, beq_iff_eq]
        exact ⟨_, hmem, rfl, rfl⟩

theorem pf0_ok : PlaceFoodOK pf0 := by
  intro occ c h
  exact getRandomPosition_spec rand0 occ 441 0 c h

/-- dequeue leaves every field except direction and moveQueue unchanged. -/
theorem dequeue_fields (s : GameS) :
    (dequeue s).snake = s.snake ∧ (dequeue s).food = s.food ∧
    (dequeue s).score = s.score ∧ (dequeue s).highScore = s.highScore ∧
    (dequeue s).gameState = s.gameState ∧ (dequeue s).speed = s.speed := by
  unfold dequeue
  cases s.moveQueue <;> exact ⟨rfl, rfl, rfl, rfl, rfl, rfl⟩

theorem updateHighScore_fields (s : GameS) :
    (updateHighScore s).snake = s.snake ∧ (updateHighScore s).food = s.food ∧
    (updateHighScore s).score = s.score ∧
    (updateHighScore s).direction = s.direction ∧
    (updateHighScore s).moveQueue = s.moveQueue ∧
    (updateHighScore s).gameState = s.gameState := by
  unfold updateHighScore
  split <;> exact ⟨rfl, rfl, rfl, rfl, rfl, rfl⟩

theorem updateHighScore_le (s : GameS) :
    (updateHighScore s).score ≤ (updateHighScore s).highScore := by
  unfold updateHighScore
  split
  · exact Nat.le_refl _
  · exact Nat.le_of_not_lt (by assumption)

theorem updateHighScore_mono (s : GameS) :
    s.highScore ≤ (updateHighScore s).highScore := by
  unfold updateHighScore
  split
  · exact Nat.le_of_lt (by assumption)
  · exact Nat.le_refl _

theorem moveSnakeGo_cases (pf : List Cell → Option Cell) (s m : GameS)
    (head : Cell) (tail : List Cell)
    (h : moveSnakeGo pf s (head :: tail) = some m) :
    (wallCollision (head.1 + s.direction.1, head.2 + s.direction.2) ∧
      m = { s with gameState := GState.GAME_OVER }) ∨
    (¬ wallCollision (head.1 + s.direction.1, head.2 + s.direction.2) ∧
      selfCollision (head :: tail)
        (head.1 + s.direction.1, head.2 + s.direction.2) = true ∧
      m = { s with gameState := GState.GAME_OVER }) ∨
    (¬ wallCollision (head.1 + s.direction.1, head.2 + s.direction.2) ∧
      selfCollision (head :: tail)
        (head.1 + s.direction.1, head.2 + s.direction.2) = false ∧
      (head.1 + s.direction.1 = s.food.1 ∧ head.2 + s.direction.2 = s.food.2) ∧
      ∃ f, pf ((head.1 + s.direction.1, head.2 + s.direction.2) :: head :: tail) = some f ∧
        m = { s with
                snake := (head.1 + s.direction.1, head.2 + s.direction.2) :: head :: tail
                food := f
                score := s.score + 10 }) ∨
    (¬ wallCollision (head.1 + s.direction.1, head.2 + s.direction.2) ∧
      selfCollision (head :: tail)
        (head.1 + s.direction.1, head.2 + s.direction.2) = false ∧
      ¬ (head.1 + s.direction.1 = s.food.1 ∧ head.2 + s.direction.2 = s.food.2) ∧
      m = { s with
              snake := ((head.1 + s.direction.1, head.2 + s.direction.2) :: head :: tail).dropLast }) := by
  unfold moveSnakeGo at h
  simp only [] at h
  split_ifs at h with h1 h2 h3
  · exact Or.inl ⟨h1, ((Option.some.injEq _ _).mp h).symm⟩
  · exact Or.inr (Or.inl ⟨h1, h2, ((Option.some.injEq _ _).mp h).symm⟩)
  · rcases hp : pf ((head.1 + s.direction.1, head.2 + s.direction.2) :: head :: tail) with _ | f
    · rw [hp] at h; exact absurd h (by simp)
    · rw [hp] at h
      exact Or.inr (Or.inr (Or.inl ⟨h1, Bool.eq_false_iff.mpr h2, h3, f, rfl,
        ((Option.some.injEq _ _).mp h).symm⟩))
  · exact Or.inr (Or.inr (Or.inr ⟨h1, Bool.eq_false_iff.mpr h2, h3,
      ((Option.some.injEq _ _).mp h).symm⟩))

theorem handleKeyDown_fields (key : String) (s : GameS) :
    (handleKeyDown key s).snake = s.snake ∧ (handleKeyDown key s).food = s.food ∧
    (handleKeyDown key s).direction = s.direction ∧
    (handleKeyDown key s).score = s.score ∧
    (handleKeyDown key s).highScore = s.highScore ∧
    (handleKeyDown key s).gameState = s.gameState ∧
    (handleKeyDown key s).speed = s.speed := by
  unfold handleKeyDown
  split
  · exact ⟨rfl, rfl, rfl, rfl, rfl, rfl, rfl⟩
  · split
    · exact ⟨rfl, rfl, rfl, rfl, rfl, rfl, rfl⟩
    · split
      · exact ⟨rfl, rfl, rfl, rfl, rfl, rfl, rfl⟩
      · split
        · exact ⟨rfl, rfl, rfl, rfl, rfl, rfl, rfl⟩
        · exact ⟨rfl, rfl, rfl, rfl, rfl, rfl, rfl⟩

theorem getLast?_cons_eq (d : Cell) (q : List Cell) :
    (d :: q).getLast? = some ((q.getLast?).getD d) := by
  induction q generalizing d with
  | nil => rfl
  | cons a t ih =>
    rw [List.getLast?_cons_cons, ih a]
    rfl

theorem keyToDir_unit (k : String) (nd : Cell) (h : keyToDir k = some nd) :
    IsUnitDir nd := by
  unfold keyToDir at h
  split_ifs at h <;> cases h <;> decide

theorem unitDir_noRev_self (d : Cell) (h : IsUnitDir d) : NoRev d d := by
  rcases h with rfl | rfl | rfl | rfl <;> decide

theorem dequeue_nil (s : GameS) (h : s.moveQueue = []) : dequeue s = s := by
  unfold dequeue; rw [h]

theorem dequeue_cons (s : GameS) (d : Cell) (rest : List Cell)
    (h : s.moveQueue = d :: rest) :
    dequeue s = { s with direction := d, moveQueue := rest } := by
  unfold dequeue; rw [h]

/-- The state invariant maintained after a game start: duplicate-free
snake, food off the snake, unit directions, no adjacent reversal in the
direction-plus-queue chain, score a multiple of 10 and at most highScore. -/
structure GoodS (s : GameS) : Prop where
  nodup : s.snake.Nodup
  foodOff : s.food ∉ s.snake
  dirUnit : IsUnitDir s.direction
  queueUnit : ∀ d ∈ s.moveQueue, IsUnitDir d
  dirChain : List.Chain' NoRev (s.direction :: s.moveQueue)
  scoreDvd : 10 ∣ s.score
  scoreLe : s.score ≤ s.highScore

theorem dequeue_dir (s : GameS) (hg : GoodS s) :
    IsUnitDir (dequeue s).direction ∧
    (∀ d ∈ (dequeue s).moveQueue, IsUnitDir d) ∧
    List.Chain' NoRev ((dequeue s).direction :: (dequeue s).moveQueue) ∧
    NoRev s.direction (dequeue s).direction := by
  rcases hq : s.moveQueue with _ | ⟨d, rest⟩
  · rw [dequeue_nil s hq]
    refine ⟨hg.dirUnit, hg.queueUnit, ?_, unitDir_noRev_self _ hg.dirUnit⟩
    rw [hq]
    exact List.chain'_singleton _
  · rw [dequeue_cons s d rest hq]
    have hch := hg.dirChain
    rw [hq] at hch
    rw [List.chain'_cons] at hch
    refine ⟨hg.queueUnit d (by rw [hq]; exact List.mem_cons_self _ _), ?_, hch.2, hch.1⟩
    intro x hx
    exact hg.queueUnit x (by rw [hq]; exact List.mem_cons_of_mem _ hx)

theorem handleKeyDown_queue (key : String) (s : GameS) :
    (handleKeyDown key s).moveQueue = s.moveQueue ∨
    ∃ nd, IsUnitDir nd ∧
      NoRev ((s.moveQueue.getLast?).getD s.direction) nd ∧
      (handleKeyDown key s).moveQueue = s.moveQueue ++ [nd] := by
  by_cases h1 : s.gameState ≠ GState.PLAYING
  · left; simp [handleKeyDown, h1]
  · by_cases h2 : key.toLower = " "
    · left; simp [handleKeyDown, h1, h2]
    · rcases hk : keyToDir key.toLower with _ | nd
      · left; simp [handleKeyDown, h1, h2, hk]
      · by_cases h3 : ((s.moveQueue.getLast?).getD s.direction).1 ≠ -nd.1 ∨
            ((s.moveQueue.getLast?).getD s.direction).2 ≠ -nd.2
        · right
          refine ⟨nd, keyToDir_unit _ _ hk, ?_, ?_⟩
          · intro hrev
            rcases h3 with h | h
            · exact h (by rw [hrev.1]; ring)
            · exact h (by rw [hrev.2]; ring)
          · simp [handleKeyDown, h1, h2, hk, h3]
        · left; simp [handleKeyDown, h1, h2, hk, h3]

theorem handleKeyDown_good (key : String) (s : GameS) (hg : GoodS s) :
    GoodS (handleKeyDown key s) := by
  obtain ⟨hsn, hfd, hdir, hsc, hhs, hgs, hsp⟩ := handleKeyDown_fields key s
  rcases handleKeyDown_queue key s with hq | ⟨nd, hu, hnr, hq⟩
  · exact ⟨hsn ▸ hg.nodup, by rw [hfd, hsn]; exact hg.foodOff,
      hdir ▸ hg.dirUnit, hq ▸ hg.queueUnit,
      by rw [hdir, hq]; exact hg.dirChain,
      hsc ▸ hg.scoreDvd, by rw [hsc, hhs]; exact hg.scoreLe⟩
  · refine ⟨hsn ▸ hg.nodup, by rw [hfd, hsn]; exact hg.foodOff,
      hdir ▸ hg.dirUnit, ?_, ?_,
      hsc ▸ hg.scoreDvd, by rw [hsc, hhs]; exact hg.scoreLe⟩
    · rw [hq]
      intro d hd
      rcases List.mem_append.mp hd with h | h
      · exact hg.queueUnit d h
      · rw [List.mem_singleton.mp h]
        exact hu
    · rw [hdir, hq, ← List.cons_append]
      rw [List.chain'_append]
      refine ⟨hg.dirChain, List.chain'_singleton _, ?_⟩
      intro x hx y hy
      rw [getLast?_cons_eq] at hx
      rw [Option.mem_def, Option.some.injEq] at hx
      simp only [List.head?_cons, Option.mem_def, Option.some.injEq] at hy
      rw [← hx, ← hy] at *
      exact hx ▸ hy ▸ hnr

theorem moveSnakeGo_frame (pf : List Cell → Option Cell) (s m : GameS)
    (head : Cell) (tail : List Cell)
    (h : moveSnakeGo pf s (head :: tail) = some m) :
    m.direction = s.direction ∧ m.moveQueue = s.moveQueue ∧
    m.highScore = s.highScore ∧ m.speed = s.speed ∧
    (m.score = s.score ∨ m.score = s.score + 10) := by
  rcases moveSnakeGo_cases pf s m head tail h with
    ⟨_, rfl⟩ | ⟨_, _, rfl⟩ | ⟨_, _, _, f, _, rfl⟩ | ⟨_, _, _, rfl⟩
  · exact ⟨rfl, rfl, rfl, rfl, Or.inl rfl⟩
  · exact ⟨rfl, rfl, rfl, rfl, Or.inl rfl⟩
  · exact ⟨rfl, rfl, rfl, rfl, Or.inr rfl⟩
  · exact ⟨rfl, rfl, rfl, rfl, Or.inl rfl⟩

theorem moveSnakeGo_inv (pf : List Cell → Option Cell)
    (hpf : PlaceFoodOK pf) (s m : GameS)
    (head : Cell) (tail : List Cell) (hsn : s.snake = head :: tail)
    (hnd : s.snake.Nodup) (hfd : s.food ∉ s.snake)
    (h : moveSnakeGo pf s (head :: tail) = some m) :
    m.snake.Nodup ∧ m.food ∉ m.snake := by
  rw [hsn] at hnd hfd
  rcases moveSnakeGo_cases pf s m head tail h with
    ⟨_, rfl⟩ | ⟨_, _, rfl⟩ | ⟨_, hs, hf, f, hp, rfl⟩ | ⟨_, hs, hf, rfl⟩
  · exact ⟨hsn ▸ hnd, by rw [hsn] at *; exact hfd⟩
  · exact ⟨hsn ▸ hnd, by rw [hsn] at *; exact hfd⟩
  · -- food eaten: snake grows by the new head, fresh food placed off it
    have hnf : (head.1 + s.direction.1, head.2 + s.direction.2) = s.food :=
      Prod.ext_iff.mpr hf
    obtain ⟨hbf, hfo⟩ := hpf _ _ hp
    refine ⟨?_, hfo⟩
    rw [List.nodup_cons]
    exact ⟨by rw [hnf]; exact hfd, hnd⟩
  · -- normal move: prepend new head, pop the tail
    have hdl : ((head.1 + s.direction.1, head.2 + s.direction.2) :: head :: tail).dropLast
        = (head.1 + s.direction.1, head.2 + s.direction.2) :: (head :: tail).dropLast := rfl
    constructor
    · show (((head.1 + s.direction.1, head.2 + s.direction.2) :: head :: tail).dropLast).Nodup
      rw [hdl, List.nodup_cons]
      constructor
      · intro hmem
        have := (selfCollision_iff (head :: tail)
          (head.1 + s.direction.1, head.2 + s.direction.2)).mpr hmem
        rw [hs] at this
        exact absurd this (by simp)
      · exact (List.dropLast_sublist (head :: tail)).nodup hnd
    · show s.food ∉ ((head.1 + s.direction.1, head.2 + s.direction.2) :: head :: tail).dropLast
      rw [hdl]
      intro hmem
      rcases List.mem_cons.mp hmem with he | he
      · exact hf ⟨by rw [he], by rw [he]⟩
      · exact hfd ((List.dropLast_sublist (head :: tail)).subset he)

theorem moveSnake_good (pf : List Cell → Option Cell) (hpf : PlaceFoodOK pf)
    (s m : GameS) (hg : GoodS s) (h : moveSnake pf s = some m) :
    GoodS (updateHighScore m) ∧ m.highScore = s.highScore ∧
    NoRev s.direction m.direction ∧
    (updateHighScore m).direction = m.direction := by
  unfold moveSnake at h
  obtain ⟨hdu, hqu, hdc, hnr⟩ := dequeue_dir s hg
  obtain ⟨hdsn, hdfd, hdsc, hdhs, hdgs, hdsp⟩ := dequeue_fields s
  rcases hsn : (dequeue s).snake with _ | ⟨head, tail⟩
  · rw [hsn] at h; exact absurd h (by simp [moveSnakeGo])
  · rw [hsn] at h
    obtain ⟨hmd, hmq, hmhs, hmsp, hmsc⟩ := moveSnakeGo_frame pf _ m head tail h
    obtain ⟨hmnd, hmfd⟩ := moveSnakeGo_inv pf hpf _ m head tail hsn
      (by rw [hdsn]; exact hg.nodup) (by rw [hdfd, hdsn]; exact hg.foodOff) h
    obtain ⟨husn, hufd, husc, hud, huq, hugs⟩ := updateHighScore_fields m
    refine ⟨⟨husn ▸ hmnd, by rw [hufd, husn]; exact hmfd,
        by rw [hud, hmd]; exact hdu,
        by rw [huq, hmq]; exact hqu,
        by rw [hud, huq, hmd, hmq]; exact hdc,
        ?_, updateHighScore_le m⟩,
      by rw [hmhs, hdhs],
      by rw [hmd]; exact hnr,
      hud⟩
    rw [husc]
    rcases hmsc with hsc | hsc <;> rw [hsc, hdsc]
    · exact hg.scoreDvd
    · exact Nat.dvd_add hg.scoreDvd (by norm_num)

theorem stepEv_good (pf : List Cell → Option Cell) (hpf : PlaceFoodOK pf)
    (s m : GameS) (ev : Ev) (hg : GoodS s) (h : stepEv pf s ev = some m) :
    GoodS m := by
  cases ev with
  | key k =>
    unfold stepEv at h
    cases h
    exact handleKeyDown_good k s hg
  | tick =>
    unfold stepEv at h
    split_ifs at h with hpl
    · rcases hm : moveSnake pf s with _ | m0
      · rw [hm] at h; exact absurd h (by simp)
      · rw [hm] at h
        simp only [Option.map_some] at h
        obtain ⟨hgood, _, _, _⟩ := moveSnake_good pf hpf s m0 hg hm
        have hm2 : updateHighScore m0 = m := by injection h
        subst hm2
        exact hgood
    · cases h
      exact hg

theorem stepEv_hs_mono (pf : List Cell → Option Cell) (s m : GameS) (ev : Ev)
    (h : stepEv pf s ev = some m) : s.highScore ≤ m.highScore := by
  cases ev with
  | key k =>
    unfold stepEv at h
    cases h
    obtain ⟨_, _, _, _, hhs, _, _⟩ := handleKeyDown_fields k s
    rw [hhs]
  | tick =>
    unfold stepEv at h
    split_ifs at h with hpl
    · rcases hm : moveSnake pf s with _ | m0
      · rw [hm] at h; exact absurd h (by simp)
      · rw [hm] at h
        simp only [Option.map_some] at h
        have hm2 : updateHighScore m0 = m := by injection h
        subst hm2
        unfold moveSnake at hm
        obtain ⟨_, _, _, hdhs, _, _⟩ := dequeue_fields s
        rcases hsn : (dequeue s).snake with _ | ⟨head, tail⟩
        · rw [hsn] at hm; exact absurd hm (by simp [moveSnakeGo])
        · rw [hsn] at hm
          obtain ⟨_, _, hmhs, _, _⟩ := moveSnakeGo_frame pf _ m0 head tail hm
          calc s.highScore = m0.highScore := by rw [hmhs, hdhs]
            _ ≤ (updateHighScore m0).highScore := updateHighScore_mono m0
    · cases h
      exact Nat.le_refl _

theorem runEvents_cons (pf : List Cell → Option Cell) (s : GameS) (ev : Ev)
    (evs : List Ev) :
    runEvents pf s (ev :: evs) =
      match stepEv pf s ev with
      | none => none
      | some s' => runEvents pf s' evs := rfl

theorem runEvents_inv (pf : List Cell → Option Cell) (P : GameS → Prop)
    (hstep : ∀ s ev m, P s → stepEv pf s ev = some m → P m) :
    ∀ (events : List Ev) (s m : GameS),
      P s → runEvents pf s events = some m → P m := by
  intro events
  induction events with
  | nil =>
    intro s m hP h
    unfold runEvents at h
    cases h
    exact hP
  | cons ev evs ih =>
    intro s m hP h
    unfold runEvents at h
    rcases he : stepEv pf s ev with _ | s'
    · rw [he] at h; exact absurd h (by simp)
    · rw [he] at h
      exact ih s' m (hstep s ev s' hP he) h

theorem runEvents_good (pf : List Cell → Option Cell) (hpf : PlaceFoodOK pf)
    (events : List Ev) (s m : GameS) (hg : GoodS s)
    (h : runEvents pf s events = some m) : GoodS m :=
  runEvents_inv pf GoodS (fun s ev m hP he => stepEv_good pf hpf s m ev hP he)
    events s m hg h

theorem runEvents_hs_mono (pf : List Cell → Option Cell) :
    ∀ (events : List Ev) (s m : GameS),
      runEvents pf s events = some m → s.highScore ≤ m.highScore := by
  intro events
  induction events with
  | nil =>
    intro s m h
    unfold runEvents at h
    cases h
    exact Nat.le_refl _
  | cons ev evs ih =>
    intro s m h
    unfold runEvents at h
    rcases he : stepEv pf s ev with _ | s'
    · rw [he] at h; exact absurd h (by simp)
    · rw [he] at h
      exact Nat.le_trans (stepEv_hs_mono pf s s' ev he) (ih s' m h)

theorem runEvents_append (pf : List Cell → Option Cell) :
    ∀ (l1 l2 : List Ev) (s : GameS),
      runEvents pf s (l1 ++ l2) =
        (runEvents pf s l1).bind fun s' => runEvents pf s' l2 := by
  intro l1
  induction l1 with
  | nil => intro l2 s; rfl
  | cons ev evs ih =>
    intro l2 s
    rw [List.cons_append, runEvents_cons, runEvents_cons]
    rcases he : stepEv pf s ev with _ | s'
    · rfl
    · exact ih l2 s'

theorem startGame_good (pf : List Cell → Option Cell) (hpf : PlaceFoodOK pf)
    (sp : Nat) (s0 s1 : GameS) (h : startGame pf sp s0 = some s1) :
    GoodS s1 := by
  unfold startGame at h
  rcases hp : pf [(0, 0), (0, -1), (0, -2)] with _ | f
  · rw [hp] at h; exact absurd h (by simp)
  · rw [hp] at h
    obtain ⟨hbf, hfo⟩ := hpf _ _ hp
    cases h
    refine ⟨?_, hfo, ?_, ?_, ?_, ⟨0, rfl⟩, Nat.zero_le _⟩
    · show ([((0 : Int), (0 : Int)), (0, -1), (0, -2)] : List Cell).Nodup
      decide
    · show IsUnitDir ((0 : Int), (1 : Int))
      decide
    · intro d hd
      exact absurd hd (List.not_mem_nil d)
    · show List.Chain' NoRev [((0 : Int), (1 : Int))]
      exact List.chain'_singleton _

theorem tickDirs_cons (pf : List Cell → Option Cell) (s : GameS) (ev : Ev)
    (evs : List Ev) :
    tickDirs pf s (ev :: evs) =
      match stepEv pf s ev with
      | none => []
      | some s' =>
        match ev with
        | Ev.tick =>
          if s.gameState = GState.PLAYING then s'.direction :: tickDirs pf s' evs
          else tickDirs pf s' evs
        | Ev.key _ => tickDirs pf s' evs := rfl

theorem tickDirs_chain (pf : List Cell → Option Cell) (hpf : PlaceFoodOK pf) :
    ∀ (events : List Ev) (s : GameS), GoodS s →
      List.Chain' NoRev (s.direction :: tickDirs pf s events) := by
  intro events
  induction events with
  | nil =>
    intro s hg
    exact List.chain'_singleton _
  | cons ev evs ih =>
    intro s hg
    rw [tickDirs_cons]
    rcases he : stepEv pf s ev with _ | s'
    · exact List.chain'_singleton _
    · have hg' : GoodS s' := stepEv_good pf hpf s s' ev hg he
      cases ev with
      | key k =>
        have hd : s'.direction = s.direction := by
          have := he
          unfold stepEv at this
          have h2 : handleKeyDown k s = s' := by injection this
          obtain ⟨_, _, hdir, _, _, _, _⟩ := handleKeyDown_fields k s
          rw [← h2, hdir]
        have := ih s' hg'
        rw [hd] at this
        exact this
      | tick =>
        show List.Chain' NoRev (s.direction ::
          if s.gameState = GState.PLAYING then s'.direction :: tickDirs pf s' evs
          else tickDirs pf s' evs)
        by_cases hpl : s.gameState = GState.PLAYING
        · rw [if_pos hpl]
          rw [List.chain'_cons]
          refine ⟨?_, ih s' hg'⟩
          have := he
          unfold stepEv at this
          rw [if_pos hpl] at this
          rcases hm : moveSnake pf s with _ | m0
          · rw [hm] at this; exact absurd this (by simp)
          · rw [hm] at this
            simp only [Option.map_some] at this
            have hm2 : updateHighScore m0 = s' := by injection this
            obtain ⟨hgood, _, hnr, hud⟩ := moveSnake_good pf hpf s m0 hg hm
            rw [← hm2, hud]
            exact hnr
        · rw [if_neg hpl]
          have hs' : s = s' := by
            have := he
            unfold stepEv at this
            rw [if_neg hpl] at this
            injection this
          rw [← hs'] at hg' ⊢
          exact ih s hg'

theorem newHeadOf_eq (s : GameS) (head : Cell) (tail : List Cell)
    (hsn : (dequeue s).snake = head :: tail) :
    newHeadOf s = (head.1 + (dequeue s).direction.1,
                   head.2 + (dequeue s).direction.2) := by
  obtain ⟨hdsn, _, _, _, _, _⟩ := dequeue_fields s
  unfold newHeadOf effDir
  rw [show s.snake = head :: tail from by rw [← hdsn, hsn]]
  rfl

theorem moveSnakeGo_wall (pf : List Cell → Option Cell) (s : GameS)
    (head : Cell) (tail : List Cell)
    (hw : wallCollision (head.1 + s.direction.1, head.2 + s.direction.2)) :
    moveSnakeGo pf s (head :: tail)
      = some { s with gameState := GState.GAME_OVER } := by
  simp only [moveSnakeGo]
  rw [if_pos hw]

theorem moveSnakeGo_self (pf : List Cell → Option Cell) (s : GameS)
    (head : Cell) (tail : List Cell)
    (hw : ¬ wallCollision (head.1 + s.direction.1, head.2 + s.direction.2))
    (hsc : selfCollision (head :: tail)
      (head.1 + s.direction.1, head.2 + s.direction.2) = true) :
    moveSnakeGo pf s (head :: tail)
      = some { s with gameState := GState.GAME_OVER } := by
  simp only [moveSnakeGo]
  rw [if_neg hw, if_pos hsc]

theorem tick_snake_length (pf : List Cell → Option Cell) (s m : GameS)
    (hne : s.snake ≠ [])
    (hfb : isInBounds s.food)
    (hfd : s.food ∉ s.snake.dropLast)
    (h : moveSnake pf s = some m) :
    m.snake.length =
      if newHeadOf s = s.food then s.snake.length + 1 else s.snake.length := by
  unfold moveSnake at h
  obtain ⟨hdsn, hdfd, _, _, _, _⟩ := dequeue_fields s
  rcases hsn : (dequeue s).snake with _ | ⟨head, tail⟩
  · exact absurd (by rw [← hdsn, hsn]) hne
  · rw [hsn] at h
    have hnw := newHeadOf_eq s head tail hsn
    have hss : s.snake = head :: tail := by rw [← hdsn, hsn]
    rcases moveSnakeGo_cases pf (dequeue s) m head tail h with
      ⟨hw, rfl⟩ | ⟨hw, hsc, rfl⟩ | ⟨hw, hsc, hf, f, hp, rfl⟩ | ⟨hw, hsc, hf, rfl⟩
    · have hne2 : newHeadOf s ≠ s.food := by
        intro he
        have hw2 : wallCollision s.food := by rw [← he, hnw]; exact hw
        exact (wallCollision_iff _).mp hw2 hfb
      rw [if_neg hne2]
      show (dequeue s).snake.length = s.snake.length
      rw [hdsn]
    · have hmem : newHeadOf s ∈ s.snake.dropLast := by
        rw [hss, hnw]
        exact (selfCollision_iff _ _).mp hsc
      rw [if_neg (fun he => hfd (by rw [← he]; exact hmem))]
      show (dequeue s).snake.length = s.snake.length
      rw [hdsn]
    · have he : newHeadOf s = s.food := by
        rw [hnw, ← hdfd]
        exact Prod.ext_iff.mpr hf
      rw [if_pos he]
      show ((head.1 + (dequeue s).direction.1,
             head.2 + (dequeue s).direction.2) :: head :: tail).length
          = s.snake.length + 1
      rw [hss]
      simp
    · have hne2 : newHeadOf s ≠ s.food := by
        intro he
        apply hf
        have he2 : (head.1 + (dequeue s).direction.1,
            head.2 + (dequeue s).direction.2) = (dequeue s).food := by
          rw [← hnw, he, hdfd]
        exact Prod.ext_iff.mp he2
      rw [if_neg hne2]
      show (((head.1 + (dequeue s).direction.1,
             head.2 + (dequeue s).direction.2) :: head :: tail).dropLast).length
          = s.snake.length
      rw [List.length_dropLast, hss]
      simp

theorem tick_collision_atomic (pf : List Cell → Option Cell) (s : GameS)
    (hne : s.snake ≠ [])
    (hcol : ¬ isInBounds (newHeadOf s) ∨ newHeadOf s ∈ s.snake.dropLast) :
    ∃ m, moveSnake pf s = some m ∧ m.gameState = GState.GAME_OVER ∧
      m.snake = s.snake ∧ m.food = s.food ∧ m.score = s.score := by
  obtain ⟨hdsn, hdfd, hdsc, _, _, _⟩ := dequeue_fields s
  rcases hsn : (dequeue s).snake with _ | ⟨head, tail⟩
  · exact absurd (by rw [← hdsn, hsn]) hne
  · have hnw := newHeadOf_eq s head tail hsn
    have hss : s.snake = head :: tail := by rw [← hdsn, hsn]
    refine ⟨{ dequeue s with gameState := GState.GAME_OVER }, ?_, rfl,
      by show (dequeue s).snake = s.snake; rw [hdsn],
      by show (dequeue s).food = s.food; rw [hdfd],
      by show (dequeue s).score = s.score; rw [hdsc]⟩
    unfold moveSnake
    rw [hsn]
    by_cases hw : wallCollision (head.1 + (dequeue s).direction.1,
        head.2 + (dequeue s).direction.2)
    · exact moveSnakeGo_wall pf (dequeue s) head tail hw
    · have hmem : newHeadOf s ∈ s.snake.dropLast := by
        rcases hcol with hc | hc
        · exfalso
          apply hc
          by_contra hnb
          apply hw
          rw [hnw] at hnb
          exact (wallCollision_iff _).mpr hnb
        · exact hc
      have hsc : selfCollision (head :: tail)
          (head.1 + (dequeue s).direction.1,
           head.2 + (dequeue s).direction.2) = true := by
        apply (selfCollision_iff _ _).mpr
        rw [← hnw, ← hss]
        exact hmem
      exact moveSnakeGo_self pf (dequeue s) head tail hw hsc

/-! ### Concrete states used by the witnesses -/

/-- The state produced by startGame pf0 120 initialApp. -/
def startS : GameS :=
  { gameState := GState.PLAYING
    speed := 120
    score := 0
    highScore := 0
    viewMode := ViewMode.THIRD_PERSON
    snake := [(0, 0), (0, -1), (0, -2)]
    food := (-10, -10)
    direction := (0, 1)
    moveQueue := [] }

/-- startS after one tick. -/
def startS1 : GameS := { startS with snake := [(0, 1), (0, 0), (0, -1)] }

/-- startS after two ticks. -/
def startS2 : GameS := { startS with snake := [(0, 2), (0, 1), (0, 0)] }

/-- The scenario state after one tick under pfC. -/
def scenarioM : GameS := { scenarioS with snake := [(0, 3), (0, 2), (0, 1)] }

/-- A PLAYING state whose next head position leaves the grid. -/
def wallS : GameS :=
  { gameState := GState.PLAYING
    speed := 120
    score := 0
    highScore := 0
    viewMode := ViewMode.THIRD_PERSON
    snake := [(10, 0), (9, 0)]
    food := (0, 0)
    direction := (1, 0)
    moveQueue := [] }

/-! ### Claim theorems -/

/-- Claim C1: in every state reachable from a game start (any sequence of
key and tick events executed after startGame), the snake contains no two
equal cells; in particular no tick - growth ticks included - ever creates
a duplicated cell. -/
theorem reachable_snake_nodup (pf : List Cell → Option Cell) (sp : Nat)
    (s0 s1 s : GameS) (events : List Ev) (hpf : PlaceFoodOK pf)
    (hs : startGame pf sp s0 = some s1)
    (hr : runEvents pf s1 events = some s) :
    s.snake.Nodup :=
  (runEvents_good pf hpf events s1 s (startGame_good pf hpf sp s0 s1 hs) hr).nodup

theorem reachable_snake_nodup_witness : startS1.snake.Nodup :=
  reachable_snake_nodup pf0 120 initialApp startS startS1 [Ev.tick]
    pf0_ok (by decide) (by decide)

/-- Claim C2: over any sequence of events after a game start, the in-effect
direction applied at a tick is never the exact componentwise negation of
the in-effect direction applied at the previous tick (the submitted
direction is filtered against the last queued direction, or the live one
when the queue is empty, and a tick dequeues at most one direction). -/
theorem inEffect_no_reversal (pf : List Cell → Option Cell) (sp : Nat)
    (s0 s1 : GameS) (events : List Ev) (hpf : PlaceFoodOK pf)
    (hs : startGame pf sp s0 = some s1) :
    List.Chain' NoRev (s1.direction :: tickDirs pf s1 events) :=
  tickDirs_chain pf hpf events s1 (startGame_good pf hpf sp s0 s1 hs)

theorem inEffect_no_reversal_witness :
    List.Chain' NoRev (startS.direction :: tickDirs pf0 startS [Ev.tick, Ev.tick]) :=
  inEffect_no_reversal pf0 120 initialApp startS [Ev.tick, Ev.tick]
    pf0_ok (by decide)

/-- Claim C3: a tick grows the snake by exactly one cell when the new head
equals the food cell and leaves the length unchanged otherwise, the
collision branches included (there the snake is returned unmodified).
The hypotheses record the reachable-state facts that the food is in bounds
and not on the tail-exclusive body. -/
theorem tick_snake_length_claim (pf : List Cell → Option Cell) (s m : GameS)
    (hne : s.snake ≠ [])
    (hfb : isInBounds s.food)
    (hfd : s.food ∉ s.snake.dropLast)
    (h : moveSnake pf s = some m) :
    m.snake.length =
      if newHeadOf s = s.food then s.snake.length + 1 else s.snake.length :=
  tick_snake_length pf s m hne hfb hfd h

theorem tick_snake_length_claim_witness :
    scenarioM.snake.length =
      if newHeadOf scenarioS = scenarioS.food then scenarioS.snake.length + 1
      else scenarioS.snake.length :=
  tick_snake_length_claim pfC scenarioS scenarioM (by decide) (by decide)
    (by decide) (by decide)

/-- Claim C4: when the new head leaves [-B, B] in either coordinate or
equals a snake cell other than the current last element, the tick
transitions to GAME_OVER and leaves snake, food and score unchanged. -/
theorem tick_collision_atomic_claim (pf : List Cell → Option Cell) (s : GameS)
    (hne : s.snake ≠ [])
    (hcol : ¬ isInBounds (newHeadOf s) ∨ newHeadOf s ∈ s.snake.dropLast) :
    ∃ m, moveSnake pf s = some m ∧ m.gameState = GState.GAME_OVER ∧
      m.snake = s.snake ∧ m.food = s.food ∧ m.score = s.score :=
  tick_collision_atomic pf s hne hcol

theorem tick_collision_atomic_claim_witness :
    ∃ m, moveSnake pfC wallS = some m ∧ m.gameState = GState.GAME_OVER ∧
      m.snake = wallS.snake ∧ m.food = wallS.food ∧ m.score = wallS.score :=
  tick_collision_atomic_claim pfC wallS (by decide) (Or.inl (by decide))

/-- Claim C5 counterexample: in the spec scenario (snake [[0,2],[0,1],[0,0]],
direction (0,1), food (0,5)) the food-eat registers on tick 3, the tick
that moves the head onto (0,5): after 3 ticks the snake already has
length 4 and Score 10, and tick 4 changes neither, so tick 4 does not
register the food-eat as the claim states. -/
theorem scenario_tick4_no_eat :
    (runEvents pfC scenarioS [Ev.tick, Ev.tick, Ev.tick]).map
        (fun s => (s.snake.length, s.score)) = some (4, 10) ∧
    (runEvents pfC scenarioS [Ev.tick, Ev.tick, Ev.tick, Ev.tick]).map
        (fun s => (s.snake.length, s.score)) = some (4, 10) := by
  decide

/-- Claim C5 amended: after 3 ticks with no input the head is at (0,5) and
that third tick registers the food-eat, growing the snake to length 4 and
setting Score to 10 (after 2 ticks the snake still has length 3 and
Score 0). -/
theorem scenario_eat_on_tick3 :
    (runEvents pfC scenarioS [Ev.tick, Ev.tick]).map
        (fun s => (s.snake.headI, s.snake.length, s.score))
      = some (((0 : Int), (4 : Int)), 3, 0) ∧
    (runEvents pfC scenarioS [Ev.tick, Ev.tick, Ev.tick]).map
        (fun s => (s.snake.headI, s.snake.length, s.score))
      = some (((0 : Int), (5 : Int)), 4, 10) := by
  decide

/-- Claim C6: whenever the food placer returns a cell, that cell has both
coordinates in [-B, B] and is not a member of the occupied list (the
unbounded retry loop is modelled with explicit fuel; a run that does not
finish within any fuel returns none and yields no cell at all). -/
theorem getRandomPosition_contract (rand : Nat → Fin GRID_SIZE × Fin GRID_SIZE)
    (occ : List Cell) (fuel k : Nat) (c : Cell)
    (h : getRandomPosition rand occ fuel k = some c) :
    isInBounds c ∧ c ∉ occ :=
  getRandomPosition_spec rand occ fuel k c h

theorem getRandomPosition_contract_witness :
    isInBounds ((-9 : Int), (-10 : Int)) ∧
      ((-9 : Int), (-10 : Int)) ∉ [((-10 : Int), (-10 : Int))] :=
  getRandomPosition_contract rand0 [((-10 : Int), (-10 : Int))] 2 0
    ((-9 : Int), (-10 : Int)) (by decide)

/-- Claim C7: from any prior state, startGame(speed) produces the fixed
3-cell snake, the fixed initial heading (0,1), an empty input queue,
Score 0, food off the initial snake, GameState PLAYING and the chosen
tick period. -/
theorem startGame_resets (pf : List Cell → Option Cell) (sp : Nat)
    (s0 s1 : GameS) (hpf : PlaceFoodOK pf)
    (h : startGame pf sp s0 = some s1) :
    s1.snake = [(0, 0), (0, -1), (0, -2)] ∧ s1.direction = (0, 1) ∧
    s1.moveQueue = [] ∧ s1.score = 0 ∧ s1.food ∉ s1.snake ∧
    s1.gameState = GState.PLAYING ∧ s1.speed = sp := by
  unfold startGame at h
  rcases hp : pf [(0, 0), (0, -1), (0, -2)] with _ | f
  · rw [hp] at h; exact absurd h (by simp)
  · rw [hp] at h
    obtain ⟨_, hfo⟩ := hpf _ _ hp
    cases h
    exact ⟨rfl, rfl, rfl, rfl, hfo, rfl, rfl⟩

theorem startGame_resets_witness :
    startS.snake = [(0, 0), (0, -1), (0, -2)] ∧ startS.direction = (0, 1) ∧
    startS.moveQueue = [] ∧ startS.score = 0 ∧ startS.food ∉ startS.snake ∧
    startS.gameState = GState.PLAYING ∧ startS.speed = 120 :=
  startGame_resets pf0 120 initialApp startS pf0_ok (by decide)

/-- Claim C8: in every state reachable from a game start, the score is a
non-negative multiple of 10, and the high score is at least every score
value observed at any earlier point of the run (the high-score effect
raises highScore to score whenever score exceeds it). -/
theorem score_multiple_and_highscore (pf : List Cell → Option Cell) (sp : Nat)
    (s0 s1 s' s : GameS) (evs1 evs2 : List Ev) (hpf : PlaceFoodOK pf)
    (hs : startGame pf sp s0 = some s1)
    (h1 : runEvents pf s1 evs1 = some s')
    (h2 : runEvents pf s1 (evs1 ++ evs2) = some s) :
    10 ∣ s.score ∧ s'.score ≤ s.highScore := by
  have hg1 : GoodS s1 := startGame_good pf hpf sp s0 s1 hs
  have hg' : GoodS s' := runEvents_good pf hpf evs1 s1 s' hg1 h1
  have hap := runEvents_append pf evs1 evs2 s1
  rw [h1] at hap
  have h3 : runEvents pf s' evs2 = some s := by rw [hap] at h2; exact h2
  have hg : GoodS s := runEvents_good pf hpf evs2 s' s hg' h3
  exact ⟨hg.scoreDvd,
    Nat.le_trans hg'.scoreLe (runEvents_hs_mono pf evs2 s' s h3)⟩

theorem score_multiple_and_highscore_witness :
    10 ∣ startS2.score ∧ startS1.score ≤ startS2.highScore :=
  score_multiple_and_highscore pf0 120 initialApp startS startS1 startS2
    [Ev.tick] [Ev.tick] pf0_ok (by decide) (by decide) (by decide)

/-- Claim C9: in every state reachable from a game start, the food cell is
not occupied by any snake cell - food is placed off-snake, and an eat
immediately replaces the food against the post-growth snake. -/
theorem reachable_food_off_snake (pf : List Cell → Option Cell) (sp : Nat)
    (s0 s1 s : GameS) (events : List Ev) (hpf : PlaceFoodOK pf)
    (hs : startGame pf sp s0 = some s1)
    (hr : runEvents pf s1 events = some s) :
    s.food ∉ s.snake :=
  (runEvents_good pf hpf events s1 s (startGame_good pf hpf sp s0 s1 hs) hr).foodOff

theorem reachable_food_off_snake_witness : startS1.food ∉ startS1.snake :=
  reachable_food_off_snake pf0 120 initialApp startS startS1 [Ev.tick]
    pf0_ok (by decide) (by decide)

/-- Claim C10: a key event received while the game state is not PLAYING
performs no mutation at all - the state, in particular the move queue,
the in-effect direction and the view mode, is unchanged. -/
theorem keydown_not_playing_noop (key : String) (s : GameS)
    (h : s.gameState ≠ GState.PLAYING) :
    handleKeyDown key s = s := by
  unfold handleKeyDown
  rw [if_pos h]

theorem keydown_not_playing_noop_witness :
    handleKeyDown ("w") initialApp = initialApp :=
  keydown_not_playing_noop ("w") initialApp (by decide)

end SnakeSpec
